import Mathlib

/-!
Verification of the session broker and element reference system of the
agent-browser repository, shallowly embedded in Lean.

The embedding follows `src/daemon.ts` (session registry, dispatch,
TTL sweep, wire protocol), `src/ref-store.ts` (locator resolution),
`src/state.ts` (ref naming and list slicing), `src/actions.ts`
(console/network capture), the friendly id generator, and the HTTP
server front-end.  Timestamps are modelled as `Int` (JavaScript
`Date.now()` arithmetic on integers), external effects (the browser
engine, JSON parsing, disk) as explicit outcome parameters of type
`Except String _`.
-/

namespace AgentBrowser

/-- A daemon session as in `DaemonSession` (`src/daemon.ts`): the fields
relevant to the broker logic.  The browser handle, options and profile
fields are external collaborators and carry no broker-visible state
beyond the close-time outcomes modelled as parameters below. -/
structure DSession where
  id : String
  busy : Bool
  lastUsed : Int
deriving Repr, DecidableEq

/-- The daemon's mutable state: the `sessions` map (insertion-ordered,
modelled as a list with unique ids) and the id generator's `used` set
(`createIdGenerator` in the friendly-id module). -/
structure BrokerState where
  sessions : List DSession
  usedIds : List String
deriving Repr, DecidableEq

/-- `sessions.has(id)` on the registry. -/
def hasSession (st : BrokerState) (sid : String) : Bool :=
  st.sessions.any (fun s => s.id = sid)

/-- `sessions.get(id)` on the registry. -/
def findSession (st : BrokerState) (sid : String) : Option DSession :=
  st.sessions.find? (fun s => s.id = sid)

/-- In-place mutation of the session object held in the map
(`session.busy = ...`, `session.lastUsed = ...`): the registry entry
with the given id is updated, other entries are untouched. -/
def updateSession (st : BrokerState) (sid : String) (f : DSession → DSession) :
    BrokerState :=
  { st with sessions := st.sessions.map (fun s => if s.id = sid then f s else s) }

/-- `createSession` (`src/daemon.ts` lines 884-910).
`generated` stands for the value `idGenerator.next()` would produce; by
`??` short-circuiting the generator is only consulted (and its `used`
set only extended) when no session id was requested.  `startOutcome` is
the outcome of the external `browser.start()` call.  On success the new
session is appended to the registry with `busy: false` and
`lastUsed: Date.now()`. -/
def createSessionM (st : BrokerState) (sessionId : Option String)
    (generated : String) (startOutcome : Except String Unit) (now : Int) :
    Except String (BrokerState × String) :=
  let (id, used1) :=
    match sessionId with
    | some s => (s, st.usedIds)
    | none => (generated, generated :: st.usedIds)
  if hasSession st id then
    .error ("Session already exists: " ++ id)
  else
    match startOutcome with
    | .error m => .error m
    | .ok _ =>
        .ok ({ sessions := st.sessions ++ [{ id := id, busy := false, lastUsed := now }],
               usedIds := used1 }, id)

/-- `closeSession` (`src/daemon.ts` lines 923-951).  Profile saving is
wrapped in its own try/catch that only logs, so it never affects the
result; `stopOutcome` is the outcome of the external
`session.browser.stop()` call, whose failure propagates.  On success the
id is deleted from the registry and released from the id generator's
`used` set. -/
def closeSession (st : BrokerState) (sessionId : String)
    (stopOutcome : Except String Unit) : Except String BrokerState :=
  match findSession st sessionId with
  | none => .error ("Session not found: " ++ sessionId)
  | some _ =>
      match stopOutcome with
      | .error m => .error m
      | .ok _ =>
          .ok { sessions := st.sessions.filter (fun s => ¬ s.id = sessionId),
                usedIds := st.usedIds.filter (fun u => ¬ u = sessionId) }

/-- One tick of the TTL cleanup timer (`src/daemon.ts` lines 969-985):
disabled for non-positive TTL; otherwise every session with
`now - lastUsed > sessionTtl` and `!busy` is stopped, deleted from the
registry, and its id released back to the generator. -/
def shouldEvict (now ttl : Int) (s : DSession) : Bool :=
  now - s.lastUsed > ttl ∧ s.busy = false

def sweepTick (st : BrokerState) (now ttl : Int) : BrokerState :=
  if ttl ≤ 0 then st
  else
    let removedIds := (st.sessions.filter (shouldEvict now ttl)).map (fun s => s.id)
    { sessions := st.sessions.filter (fun s => ¬ shouldEvict now ttl s),
      usedIds := st.usedIds.filter (fun u => ¬ u ∈ removedIds) }

/-- A wire response (`DaemonResponse` in `src/daemon.ts`): correlation id,
success flag, optional error message.  The `data` payload is opaque to the
broker logic verified here. -/
structure DResponse where
  id : String
  success : Bool
  error : Option String
deriving Repr, DecidableEq

/-- `getOrDefaultSession` (`src/daemon.ts` lines 912-921): the target id
defaults to `"default"`; a missing session throws the session-not-found
error. -/
def getOrDefaultSession (st : BrokerState) (sessionId : Option String) :
    Except String DSession :=
  let id := sessionId.getD "default"
  match findSession st id with
  | none =>
      .error ("Session not found: " ++ id ++
        ". Use 'open' command to create a session first.")
  | some s => .ok s

/-- The dispatch entry written at the top of each session-operation arm of
`handleRequest` (`session.busy = true; session.lastUsed = Date.now()`).
Note there is no test of the current value of `busy` before it is set. -/
def sessionOpAcquire (st : BrokerState) (sid : String) (tStart : Int) :
    BrokerState :=
  updateSession st sid (fun s => { s with busy := true, lastUsed := tStart })

/-- The `finally` block of the `command` arm (`src/daemon.ts` lines
1156-1161): the busy flag and `lastUsed` are only written back when the id
is still in the registry (the `close` command removes it). -/
def commandFinally (st : BrokerState) (sid : String) (tEnd : Int) :
    BrokerState :=
  if hasSession st sid then
    updateSession st sid (fun s => { s with busy := false, lastUsed := tEnd })
  else st

/-- The `command` arm of `handleRequest` (`src/daemon.ts` lines 1140-1162).
`cmdOutcome` is the outcome of the external `executeCommand` call and
`stopOutcome` that of `browser.stop()` inside `closeSession` when the
command is `close`; a thrown error is converted by the surrounding catch
(lines 1273-1279) into an error response carrying the request id. -/
def commandCase (st : BrokerState) (reqId : String) (sessionId : Option String)
    (isClose : Bool) (cmdOutcome stopOutcome : Except String Unit)
    (tStart tEnd : Int) : DResponse × BrokerState :=
  match getOrDefaultSession st sessionId with
  | .error m => ({ id := reqId, success := false, error := some m }, st)
  | .ok s =>
      let st1 := sessionOpAcquire st s.id tStart
      let (res, st2) :=
        match cmdOutcome with
        | .error m => ({ id := reqId, success := false, error := some m }, st1)
        | .ok _ =>
            if isClose then
              match closeSession st1 s.id stopOutcome with
              | .ok st' => ({ id := reqId, success := true, error := none }, st')
              | .error m =>
                  ({ id := reqId, success := false, error := some m }, st1)
            else ({ id := reqId, success := true, error := none }, st1)
      (res, commandFinally st2 s.id tEnd)

/-- The `act` arm of `handleRequest` (`src/daemon.ts` lines 1164-1209).
`actOutcome` is the outcome of the external `executeActions` / `getState`
body (per-action failures under halt-on-error resolve successfully and are
reported in the payload, so they are an `.ok` here); the `finally` block
releases the flag and stamps `lastUsed` unconditionally. -/
def actCase (st : BrokerState) (reqId : String) (sessionId : Option String)
    (actOutcome : Except String Unit) (tStart tEnd : Int) :
    DResponse × BrokerState :=
  match getOrDefaultSession st sessionId with
  | .error m => ({ id := reqId, success := false, error := some m }, st)
  | .ok s =>
      let st1 := sessionOpAcquire st s.id tStart
      let res :=
        match actOutcome with
        | .error m => ({ id := reqId, success := false, error := some m } : DResponse)
        | .ok _ => { id := reqId, success := true, error := none }
      (res, updateSession st1 s.id (fun t => { t with busy := false, lastUsed := tEnd }))

/-- The `wait` arm of `handleRequest` (`src/daemon.ts` lines 1211-1248),
same busy/lastUsed discipline as `act`; `waitOutcome` is the outcome of
the external `executeWait` / `getState` body. -/
def waitCase (st : BrokerState) (reqId : String) (sessionId : Option String)
    (waitOutcome : Except String Unit) (tStart tEnd : Int) :
    DResponse × BrokerState :=
  match getOrDefaultSession st sessionId with
  | .error m => ({ id := reqId, success := false, error := some m }, st)
  | .ok s =>
      let st1 := sessionOpAcquire st s.id tStart
      let res :=
        match waitOutcome with
        | .error m => ({ id := reqId, success := false, error := some m } : DResponse)
        | .ok _ => { id := reqId, success := true, error := none }
      (res, updateSession st1 s.id (fun t => { t with busy := false, lastUsed := tEnd }))

/-- The `state` arm of `handleRequest` (`src/daemon.ts` lines 1250-1271),
same busy/lastUsed discipline as `act`; `stateOutcome` is the outcome of
the external `browser.getState` body. -/
def stateCase (st : BrokerState) (reqId : String) (sessionId : Option String)
    (stateOutcome : Except String Unit) (tStart tEnd : Int) :
    DResponse × BrokerState :=
  match getOrDefaultSession st sessionId with
  | .error m => ({ id := reqId, success := false, error := some m }, st)
  | .ok s =>
      let st1 := sessionOpAcquire st s.id tStart
      let res :=
        match stateOutcome with
        | .error m => ({ id := reqId, success := false, error := some m } : DResponse)
        | .ok _ => { id := reqId, success := true, error := none }
      (res, updateSession st1 s.id (fun t => { t with busy := false, lastUsed := tEnd }))

/-- Statement helper: every registry entry carrying `sid` (there is at most
one) has its busy flag clear and `lastUsed` stamped `t`.  Holds vacuously
when the id has been removed from the registry. -/
def releasedAt (st : BrokerState) (sid : String) (t : Int) : Bool :=
  st.sessions.all (fun s => s.id ≠ sid ∨ (s.busy = false ∧ s.lastUsed = t))

/-- Statement helper: every registry entry carrying `sid` has its busy flag
set and `lastUsed` stamped `t`. -/
def heldAt (st : BrokerState) (sid : String) (t : Int) : Bool :=
  st.sessions.all (fun s => s.id ≠ sid ∨ (s.busy = true ∧ s.lastUsed = t))

lemma releasedAt_update (st : BrokerState) (sid : String) (t : Int) :
    releasedAt
      (updateSession st sid (fun s => { s with busy := false, lastUsed := t }))
      sid t = true := by
  simp only [releasedAt, updateSession, List.all_eq_true, List.mem_map]
  rintro x ⟨a, _, rfl⟩
  by_cases h : a.id = sid <;> simp [h]

lemma heldAt_acquire (st : BrokerState) (sid : String) (t : Int) :
    heldAt (sessionOpAcquire st sid t) sid t = true := by
  simp only [heldAt, sessionOpAcquire, updateSession, List.all_eq_true, List.mem_map]
  rintro x ⟨a, _, rfl⟩
  by_cases h : a.id = sid <;> simp [h]

lemma hasSession_update (st : BrokerState) (sid x : String)
    (f : DSession → DSession) (hf : ∀ a, (f a).id = a.id) :
    hasSession (updateSession st sid f) x = hasSession st x := by
  simp only [hasSession, updateSession]
  induction st.sessions with
  | nil => rfl
  | cons a l ih =>
      simp only [List.map_cons, List.any_cons, ih]
      by_cases h : a.id = sid <;> simp [h, hf]

lemma releasedAt_of_absent (st : BrokerState) (sid : String) (t : Int)
    (h : hasSession st sid = false) : releasedAt st sid t = true := by
  simp only [hasSession, List.any_eq_false] at h
  simp only [releasedAt, List.all_eq_true]
  intro s hs
  have := h s hs
  simp_all

lemma closeSession_ok_shape (st : BrokerState) (sid : String)
    (so : Except String Unit) (st' : BrokerState)
    (h : closeSession st sid so = .ok st') :
    st' = { sessions := st.sessions.filter (fun s => ¬ s.id = sid),
            usedIds := st.usedIds.filter (fun u => ¬ u = sid) } := by
  unfold closeSession at h
  cases hf : findSession st sid <;> rw [hf] at h
  · exact absurd h (by simp)
  · cases so <;> simp_all

lemma hasSession_of_getOrDefault (st : BrokerState) (sessionId : Option String)
    (s : DSession) (h : getOrDefaultSession st sessionId = .ok s) :
    hasSession st s.id = true := by
  unfold getOrDefaultSession at h
  cases hf : findSession st (sessionId.getD "default") <;>
    simp only [hf] at h
  · exact absurd h (by simp)
  · rename_i t
    simp only [Except.ok.injEq] at h
    have hmem := List.mem_of_find?_eq_some hf
    have hp := List.find?_some hf
    simp only [decide_eq_true_eq] at hp
    simp only [hasSession, List.any_eq_true]
    exact ⟨t, hmem, by simp [hp, ← h]⟩

lemma hasSession_filter_self (l : List DSession) (u : List String) (sid : String) :
    hasSession ⟨l.filter (fun s => ¬ s.id = sid), u⟩ sid = false := by
  simp [hasSession, List.any_eq_false, List.mem_filter]

/-- An HTTP server session (`ServerSession` in the HTTP server module):
the fields relevant to its busy arbitration. -/
structure SrvSession where
  id : String
  busy : Bool
  lastUsed : Int
deriving Repr, DecidableEq

/-- The structured failures thrown by the HTTP server's session lookup:
`throwNotFound` (404) and `throwBusy` (409, "Session is busy"). -/
inductive HttpError where
  | notFound (msg : String)
  | busyRejection
deriving Repr, DecidableEq

/-- The HTTP status the server attaches to each failure. -/
def httpStatus : HttpError → Nat
  | .notFound _ => 404
  | .busyRejection => 409

/-- `getSessionOrThrow` from the HTTP server module: a missing session is
rejected with 404, and a session whose busy flag is held is rejected with
409 before any operation runs. -/
def getSessionOrThrow (sessions : List SrvSession) (sessionId : String) :
    Except HttpError SrvSession :=
  match sessions.find? (fun s => s.id = sessionId) with
  | none => .error (.notFound ("Session not found: " ++ sessionId))
  | some s => if s.busy then .error .busyRejection else .ok s

/-- Progress of one dispatched session operation through `handleRequest`'s
command arm: not yet entered, in-flight against the page, finished. -/
inductive OpPhase where
  | pending
  | running
  | finished
deriving Repr, DecidableEq

/-- Two command dispatches against the same session from two connections
(the spec's scenario), with the daemon state they share. -/
structure DispatchPair where
  st : BrokerState
  a : OpPhase
  b : OpPhase
deriving Repr, DecidableEq

/-- Interleaved handling of the two dispatches by the daemon, against the
session `sid`.  A dispatch enters by running the arm's entry code
(`sessionOpAcquire`): `handleRequest` imposes no precondition on the busy
flag, so entry is enabled whenever the dispatch has not started.  It
leaves by running the `finally` block (`commandFinally`).  Between the
two its engine call is in flight (`running`). -/
inductive DispatchStep (sid : String) : DispatchPair → DispatchPair → Prop where
  | startA (p : DispatchPair) (now : Int) (h : p.a = .pending) :
      DispatchStep sid p { p with st := sessionOpAcquire p.st sid now, a := .running }
  | startB (p : DispatchPair) (now : Int) (h : p.b = .pending) :
      DispatchStep sid p { p with st := sessionOpAcquire p.st sid now, b := .running }
  | finishA (p : DispatchPair) (now : Int) (h : p.a = .running) :
      DispatchStep sid p { p with st := commandFinally p.st sid now, a := .finished }
  | finishB (p : DispatchPair) (now : Int) (h : p.b = .running) :
      DispatchStep sid p { p with st := commandFinally p.st sid now, b := .finished }

/-- The `ping` arm of `handleRequest`. -/
def pingCase (reqId : String) : DResponse :=
  { id := reqId, success := true, error := none }

/-- The `shutdown` arm of `handleRequest` (the response written before the
daemon shuts down). -/
def shutdownCase (reqId : String) : DResponse :=
  { id := reqId, success := true, error := none }

/-- The `list` arm of `handleRequest`; its payload (the session summaries)
is opaque here. -/
def listCase (reqId : String) : DResponse :=
  { id := reqId, success := true, error := none }

/-- The `create` arm of `handleRequest` together with the handler-level
catch: a throw from `createSession` becomes an error response carrying the
request id. -/
def createCase (st : BrokerState) (reqId : String) (sessionId : Option String)
    (generated : String) (startO : Except String Unit) (now : Int) :
    DResponse × BrokerState :=
  match createSessionM st sessionId generated startO now with
  | .ok (st', _) => ({ id := reqId, success := true, error := none }, st')
  | .error m => ({ id := reqId, success := false, error := some m }, st)

/-- The `close` arm of `handleRequest` together with the handler-level
catch. -/
def closeCase (st : BrokerState) (reqId : String) (sessionId : String)
    (stopO : Except String Unit) : DResponse × BrokerState :=
  match closeSession st sessionId stopO with
  | .ok st' => ({ id := reqId, success := true, error := none }, st')
  | .error m => ({ id := reqId, success := false, error := some m }, st)

/-- Outcome of decoding one newline-delimited line in the socket data
handler (`src/daemon.ts` lines 1001-1037).  `JSON.parse` and the zod
schema are external: a line either fails to parse at all (the handler's
catch), parses but fails schema validation (`idField` is the parsed
message's `id` field when one is present), or decodes to a valid
request. -/
inductive LineDecode where
  | malformed (thrownMsg : String)
  | invalid (idField : Option String) (zodMsg : String)
  | valid
deriving Repr, DecidableEq

/-- The response the data handler writes for one line: a parse failure is
answered with the fixed id `"error"`; a schema failure echoes
`json.id ?? "unknown"`; a valid request is answered by `handleRequest`
(`handled` is that response). -/
def lineResponse (d : LineDecode) (handled : DResponse) : DResponse :=
  match d with
  | .malformed m => { id := "error", success := false, error := some m }
  | .invalid idF zm =>
      { id := idF.getD "unknown", success := false,
        error := some ("Invalid request: " ++ zm) }
  | .valid => handled

/-- A DOM element as observed by the fingerprint check: its `tagName` (as
the DOM reports it, possibly upper-case) and its present attributes.
`getAttribute` returns `none` for an absent attribute (JS `null`). -/
structure Elem where
  tagName : String
  attrs : List (String × String)
deriving Repr, DecidableEq

def getAttribute (el : Elem) (name : String) : Option String :=
  el.attrs.lookup name

/-- JavaScript string truthiness for a `string | undefined` value: falsy
exactly when absent or empty. -/
def strTruthy : Option String → Bool
  | none => false
  | some s => s ≠ ""

/-- The JS built-in `String.prototype.toLowerCase`, character-wise on the
underlying character list. -/
def jsToLower (s : String) : String :=
  ⟨s.data.map Char.toLower⟩

/-- The JS built-in `String.prototype.startsWith`. -/
def jsStartsWith (s p : String) : Bool :=
  s.data.take p.data.length == p.data

/-- `ElementSelectors` (`src/ref-store.ts`): the three selector
strategies stored per element. -/
structure ElementSelectors where
  xpath : String
  cssPath : String
  fingerprint : Option String
deriving Repr, DecidableEq

/-- The stored fingerprint of `StoredElementRef` (`src/ref-store.ts`). -/
structure StoredFingerprint where
  tagName : String
  role : Option String
  type : Option String
  name : Option String
  placeholder : Option String
deriving Repr, DecidableEq

/-- `StoredElementRef` (`src/ref-store.ts`). -/
structure StoredElementRef where
  ref : String
  index : Nat
  selectors : ElementSelectors
  fingerprint : StoredFingerprint
deriving Repr, DecidableEq

/-- The in-page fingerprint check run by `pickMatching`'s `evaluate`
callback (`src/ref-store.ts` lines 124-157): each stored field, when
truthy, must agree with the live element (tag compared lower-cased,
attributes via `getAttribute`). -/
def matchesFingerprint (fp : StoredFingerprint) (el : Elem) : Bool :=
  if fp.tagName ≠ "" ∧ jsToLower el.tagName ≠ fp.tagName then false
  else if strTruthy fp.role ∧ getAttribute el "role" ≠ fp.role then false
  else if strTruthy fp.type ∧ getAttribute el "type" ≠ fp.type then false
  else if strTruthy fp.name ∧ getAttribute el "name" ≠ fp.name then false
  else if strTruthy fp.placeholder ∧ getAttribute el "placeholder" ≠ fp.placeholder
    then false
  else true

/-- The page, as the resolver sees it: each selector string yields the
list of elements it matches, in document order (the external browser
engine; `locator.count()` / `locator.nth(i)` / `locator.first()`). -/
def Page : Type := String → List Elem

/-- `pickMatching` (`src/ref-store.ts` lines 116-165): scan the
candidates in order and return the first that passes the fingerprint
check; `none` both when there are no candidates and when none passes. -/
def pickMatching (fp : StoredFingerprint) (cands : List Elem) : Option Elem :=
  cands.find? (matchesFingerprint fp)

/-- The candidate list of the attribute-fingerprint strategy
(`src/ref-store.ts` lines 181-192): only consulted when a fingerprint
selector was stored; when the selector is attribute-only (starts with
`[`) it is qualified with the stored tag name (`tagPrefix` in the source,
where `|| ""` on a string is the identity). -/
def fingerprintCandidates (page : Page) (stored : StoredElementRef) : List Elem :=
  if strTruthy stored.selectors.fingerprint then
    let fsel := stored.selectors.fingerprint.getD ""
    let tagQualifier := stored.fingerprint.tagName
    let fingerprintSelector :=
      if jsStartsWith fsel "[" then tagQualifier ++ fsel else fsel
    page fingerprintSelector
  else []

/-- `resolveLocator` (`src/ref-store.ts` lines 92-208) from the point the
stored ref has been looked up: the strategy chain with fingerprint
checking, then the first-candidate fallback chain, then the unresolved
error. -/
def resolveLocator (page : Page) (stored : StoredElementRef) : Except String Elem :=
  let xpathCands := page ("xpath=" ++ stored.selectors.xpath)
  match pickMatching stored.fingerprint xpathCands with
  | some e => .ok e
  | none =>
    let cssCands := page stored.selectors.cssPath
    match pickMatching stored.fingerprint cssCands with
    | some e => .ok e
    | none =>
      let fpCands := fingerprintCandidates page stored
      match pickMatching stored.fingerprint fpCands with
      | some e => .ok e
      | none =>
        match xpathCands with
        | e :: _ => .ok e
        | [] =>
          match cssCands with
          | e :: _ => .ok e
          | [] =>
            match fpCands with
            | e :: _ => .ok e
            | [] =>
              .error ("Unable to resolve element for ref " ++ stored.ref ++
                ". Call getState() again to refresh element refs.")

/-- Modelled from the spec's resolution order (§4.3): try, strictly in
order, (1) the structural XPath path, (2) the short-form CSS path, (3)
the attribute-fingerprint selector (tag-qualified when attribute-only);
at each step check each candidate in order against the stored fingerprint
and let the first passing candidate win. -/
def specResolutionOrder (page : Page) (stored : StoredElementRef) : Option Elem :=
  match pickMatching stored.fingerprint (page ("xpath=" ++ stored.selectors.xpath)) with
  | some e => some e
  | none =>
    match pickMatching stored.fingerprint (page stored.selectors.cssPath) with
    | some e => some e
    | none => pickMatching stored.fingerprint (fingerprintCandidates page stored)

/-- JS number truthiness for a `number | undefined` slicing option:
falsy exactly when absent or zero.  (The state-options schema only passes
non-negative integers, so slicing is modelled over `Nat`.) -/
def natOptTruthy (o : Option Nat) : Bool :=
  o.getD 0 ≠ 0

/-- `sliceList` (`src/state.ts` lines 654-683).  For non-negative inputs
the JS `Math.max(total - tail, headItems.length)` and
`Math.max(0, total - tail)` agree with the truncated `Nat` subtraction
used here. -/
def sliceList (items : List α) (head tail limit : Option Nat) : List α :=
  let total := items.length
  if natOptTruthy head ∧ natOptTruthy tail then
    let headItems := items.take (head.getD 0)
    let tailStart := max (total - tail.getD 0) headItems.length
    headItems ++ items.drop tailStart
  else if natOptTruthy head then items.take (head.getD 0)
  else if natOptTruthy tail then items.drop (total - tail.getD 0)
  else if natOptTruthy limit then items.take (limit.getD 0)
  else items

/-- `sliceTree` (`src/state.ts` lines 685-696): the outline string is
split into lines, sliced with `sliceList`, and re-joined. -/
def sliceTree (tree : String) (head tail limit : Option Nat) : String :=
  if tree = "" then tree
  else String.intercalate "\n" (sliceList (tree.splitOn "\n") head tail limit)

/-- `setupConsoleCapture` (`src/actions.ts` lines 168-180): each console
or page-error event appends one formatted line to the logs array; no
trimming of any kind is performed on it (it is emptied only by the
explicit clear-logs operation). -/
def consoleCapturePush (logs : List String) (entry : String) : List String :=
  logs ++ [entry]

/-- The formatted console line `"[" + type + "] " + text`. -/
def consoleEntry (kind text : String) : String :=
  "[" ++ kind ++ "] " ++ text

/-- `pushNetworkEvent` (`src/actions.ts` lines 182-191): append the event,
then if the length exceeds `limit`, `splice(0, length - limit)` removes
the excess entries from the front (the oldest ones).  The event records
themselves are opaque to the buffer logic. -/
def pushNetworkEvent (events : List α) (event : α) (limit : Nat) : List α :=
  let es := events ++ [event]
  if es.length > limit then es.drop (es.length - limit) else es

/-- The default capture limit of `setupNetworkCapture`. -/
def defaultNetworkLimit : Nat := 500

/-- The JS built-in `String.prototype.trim`: strip whitespace from both
ends. -/
def jsTrim (s : String) : String :=
  ⟨((s.data.dropWhile Char.isWhitespace).reverse.dropWhile
      Char.isWhitespace).reverse⟩

/-- A character the `normalizeBase` regex `[^a-z0-9_-]+` leaves in place. -/
def isBaseAllowedChar (c : Char) : Bool :=
  ('a' ≤ c ∧ c ≤ 'z') ∨ ('0' ≤ c ∧ c ≤ '9') ∨ c = '_' ∨ c = '-'

/-- `value.replace(/[^a-z0-9_-]+/g, "-")`: each maximal run of disallowed
characters becomes a single `'-'`.  The flag records whether the previous
character belonged to such a run. -/
def collapseDisallowedRuns : List Char → Bool → List Char
  | [], _ => []
  | c :: rest, inRun =>
      if isBaseAllowedChar c then c :: collapseDisallowedRuns rest false
      else if inRun then collapseDisallowedRuns rest true
      else '-' :: collapseDisallowedRuns rest true

/-- `normalizeBase` (`src/state.ts` lines 209-213): trim, lower-case,
collapse disallowed runs to `-`, and fall back to `"element"` when
nothing remains. -/
def normalizeBase (value : String) : String :=
  let trimmed := jsToLower (jsTrim value)
  let normalized : String := ⟨collapseDisallowedRuns trimmed.data false⟩
  if normalized.length > 0 then normalized else "element"

/-- `getElementBase` (`src/state.ts` lines 215-233): the ref category —
the normalized `role` attribute when truthy, else a table over the
lower-cased tag name and, for inputs, the DOM-resolved input `type`. -/
def getElementBase (role : Option String) (tag : String) (inputType : String) :
    String :=
  if strTruthy role then normalizeBase (role.getD "")
  else if tag = "a" then "link"
  else if tag = "button" then "button"
  else if tag = "input" then
    if inputType = "checkbox" then "checkbox"
    else if inputType = "radio" then "radio"
    else if inputType = "submit" ∨ inputType = "button" then "button"
    else "input"
  else if tag = "textarea" then "textarea"
  else if tag = "select" then "select"
  else normalizeBase tag

/-- The template literal `` `${base}_${counter}` `` of
`extractInteractiveElements`; JS renders a small non-negative integer in
decimal exactly as `Nat.repr`. -/
def refName (base : String) (counter : Nat) : String :=
  base ++ "_" ++ Nat.repr counter

/-- The ref-assignment pass of `extractInteractiveElements`
(`src/state.ts` lines 383-391): a fresh `counters` record per snapshot,
`counters[base] ?? 0` read, ref emitted, `counters[base]` bumped.  The
record is modelled as an association list read through `List.lookup`. -/
def assignRefsAux : List (String × Nat) → List String → List String
  | _, [] => []
  | counters, base :: rest =>
      let counter := (counters.lookup base).getD 0
      refName base counter :: assignRefsAux ((base, counter + 1) :: counters) rest

/-- Ref assignment for one snapshot: the counters start empty (they reset
on every snapshot). -/
def assignRefs (bases : List String) : List String :=
  assignRefsAux [] bases

/-- The slice of `RawElementInfo` (`src/state.ts`) feeding ref
assignment: only `refBase` participates in naming; the remaining
extracted fields are opaque to it (two are kept to make that
non-degenerate). -/
structure RawElementInfo where
  tag : String
  text : String
  refBase : String
deriving Repr, DecidableEq

/-- The refs `extractInteractiveElements` assigns to a raw element list,
in document order. -/
def extractRefs (raws : List RawElementInfo) : List String :=
  assignRefs (raws.map (fun r => r.refBase))

/-- Modelled from the spec (§4.3 naming): the reference name is
`<category>_<n>` where `n` counts the earlier same-category elements of
the same snapshot (`pre` is the list of categories already seen). -/
def specRefs (pre bases : List String) : List String :=
  match bases with
  | [] => []
  | b :: rest => (b ++ "_" ++ Nat.repr (pre.count b)) :: specRefs (pre ++ [b]) rest

/-- Decimal value of a digit string; the interpretation under which
`Nat.repr` will be shown injective. -/
def digitsVal (l : List Char) : Nat :=
  l.foldl (fun a c => a * 10 + (c.toNat - Char.toNat '0')) 0

end AgentBrowser

namespace AgentBrowser

/-- Claim C3: `createSession(requestedId)` fails with the duplicate-session
error whenever `requestedId` is the id of a live session in the registry;
after `closeSession(id)` succeeds, that id is gone from the registry and
from the id allocator's used set, so a subsequent `createSession` with the
same id succeeds. -/
theorem c3_duplicate_and_recreate
    (st : BrokerState) (r generated : String) (startO : Except String Unit)
    (stopO : Except String Unit) (now later : Int) :
    (hasSession st r = true →
      createSessionM st (some r) generated startO now =
        .error ("Session already exists: " ++ r)) ∧
    (∀ st', closeSession st r stopO = .ok st' →
      hasSession st' r = false ∧
      r ∉ st'.usedIds ∧
      createSessionM st' (some r) generated (.ok ()) later =
        .ok ({ sessions := st'.sessions ++ [{ id := r, busy := false, lastUsed := later }],
               usedIds := st'.usedIds }, r)) := by
  constructor
  · intro h
    simp [createSessionM, h]
  · intro st' h
    unfold closeSession at h
    cases hf : findSession st r with
    | none => rw [hf] at h; exact absurd h (by simp)
    | some s =>
        rw [hf] at h
        cases stopO with
        | error m => exact absurd h (by simp)
        | ok _ =>
            simp only [Except.ok.injEq] at h
            subst h
            refine ⟨?_, ?_, ?_⟩
            · simp [hasSession, List.any_eq_false, List.mem_filter]
            · simp [List.mem_filter]
            · have hmem : hasSession
                  { sessions := st.sessions.filter (fun s => !(s.id = r : Bool)),
                    usedIds := st.usedIds.filter (fun u => !(u = r : Bool)) } r = false := by
                simp [hasSession, List.any_eq_false, List.mem_filter]
              simp [createSessionM, hmem]

/-- Witness for C3 at a concrete broker state. -/
theorem c3_duplicate_and_recreate_witness :
    (hasSession ⟨[⟨"s1", false, 0⟩], []⟩ "s1" = true →
      createSessionM ⟨[⟨"s1", false, 0⟩], []⟩ (some "s1") "g" (.ok ()) 1 =
        .error ("Session already exists: " ++ "s1")) ∧
    (∀ st', closeSession ⟨[⟨"s1", false, 0⟩], []⟩ "s1" (.ok ()) = .ok st' →
      hasSession st' "s1" = false ∧
      "s1" ∉ st'.usedIds ∧
      createSessionM st' (some "s1") "g" (.ok ()) 2 =
        .ok ({ sessions := st'.sessions ++ [{ id := "s1", busy := false, lastUsed := 2 }],
               usedIds := st'.usedIds }, "s1")) :=
  c3_duplicate_and_recreate ⟨[⟨"s1", false, 0⟩], []⟩ "s1" "g" (.ok ()) (.ok ()) 1 2

/-- Claim C5: on a sweep tick with positive TTL, a session survives in the
registry exactly when it is busy or its idle time does not exceed the TTL;
in particular every non-busy session idle past the TTL is removed, and a
busy session is never removed regardless of idle time. -/
theorem c5_sweep_evicts_idle_keeps_busy
    (st : BrokerState) (now ttl : Int) (hpos : 0 < ttl) (s : DSession)
    (hmem : s ∈ st.sessions) :
    (s ∈ (sweepTick st now ttl).sessions ↔
      ¬ (now - s.lastUsed > ttl ∧ s.busy = false)) ∧
    (s.busy = true → s ∈ (sweepTick st now ttl).sessions) := by
  have hlt : ¬ ttl ≤ 0 := by omega
  constructor
  · simp [sweepTick, hlt, List.mem_filter, hmem, shouldEvict, decide_eq_true_eq]
    by_cases hb : s.busy = true <;> simp [hb]
  · intro hbusy
    simp [sweepTick, hlt, List.mem_filter, hmem, shouldEvict, hbusy, decide_eq_true_eq]

lemma pickMatching_nil (fp : StoredFingerprint) : pickMatching fp [] = none := rfl

/-- Claim C6: whenever some strategy has a candidate passing the stored
fingerprint check, `resolveLocator` returns exactly the candidate chosen
by the spec's ordered rule — strategies tried strictly in order
(structural XPath, then short-form CSS, then tag-qualified attribute
fingerprint), each candidate checked in order, the first passing
candidate winning — and that candidate indeed passes the check. -/
theorem c6_resolution_order (page : Page) (stored : StoredElementRef) (e : Elem)
    (h : specResolutionOrder page stored = some e) :
    resolveLocator page stored = .ok e ∧
    matchesFingerprint stored.fingerprint e = true := by
  unfold specResolutionOrder at h
  cases hx : pickMatching stored.fingerprint
      (page ("xpath=" ++ stored.selectors.xpath)) with
  | some e1 =>
      simp only [hx, Option.some.injEq] at h
      subst h
      exact ⟨by simp [resolveLocator, hx], List.find?_some hx⟩
  | none =>
      simp only [hx] at h
      cases hc : pickMatching stored.fingerprint (page stored.selectors.cssPath) with
      | some e1 =>
          simp only [hc, Option.some.injEq] at h
          subst h
          exact ⟨by simp [resolveLocator, hx, hc], List.find?_some hc⟩
      | none =>
          simp only [hc] at h
          exact ⟨by simp [resolveLocator, hx, hc, h], List.find?_some h⟩

/-- Witness for C6: a page on which the XPath strategy's candidate passes
the fingerprint check. -/
theorem c6_resolution_order_witness :
    specResolutionOrder
        (fun s => if s = "xpath=/p" then [⟨"BUTTON", []⟩] else [])
        ⟨"button_0", 0, ⟨"/p", "c", none⟩, ⟨"button", none, none, none, none⟩⟩ =
      some ⟨"BUTTON", []⟩ ∧
    resolveLocator
        (fun s => if s = "xpath=/p" then [⟨"BUTTON", []⟩] else [])
        ⟨"button_0", 0, ⟨"/p", "c", none⟩, ⟨"button", none, none, none, none⟩⟩ =
      .ok ⟨"BUTTON", []⟩ :=
  ⟨by decide,
    (c6_resolution_order
      (fun s => if s = "xpath=/p" then [⟨"BUTTON", []⟩] else [])
      ⟨"button_0", 0, ⟨"/p", "c", none⟩, ⟨"button", none, none, none, none⟩⟩
      ⟨"BUTTON", []⟩ (by decide)).1⟩

/-- Claim C7: when no strategy has a candidate passing the fingerprint
check, `resolveLocator` falls back to the first candidate of the
highest-priority strategy that yields any candidate (XPath, then CSS
path, then fingerprint); and it fails — with the unresolved error
directing the caller to take a fresh snapshot — precisely when no
strategy yields any candidate at all. -/
theorem c7_fallback_and_unresolved (page : Page) (stored : StoredElementRef) :
    (specResolutionOrder page stored = none →
      (∀ e, (page ("xpath=" ++ stored.selectors.xpath)).head? = some e →
        resolveLocator page stored = .ok e) ∧
      (page ("xpath=" ++ stored.selectors.xpath) = [] →
        ∀ e, (page stored.selectors.cssPath).head? = some e →
          resolveLocator page stored = .ok e) ∧
      (page ("xpath=" ++ stored.selectors.xpath) = [] →
        page stored.selectors.cssPath = [] →
        ∀ e, (fingerprintCandidates page stored).head? = some e →
          resolveLocator page stored = .ok e)) ∧
    ((∃ msg, resolveLocator page stored = .error msg) ↔
      (page ("xpath=" ++ stored.selectors.xpath) = [] ∧
       page stored.selectors.cssPath = [] ∧
       fingerprintCandidates page stored = [])) ∧
    (page ("xpath=" ++ stored.selectors.xpath) = [] →
      page stored.selectors.cssPath = [] →
      fingerprintCandidates page stored = [] →
      resolveLocator page stored =
        .error ("Unable to resolve element for ref " ++ stored.ref ++
          ". Call getState() again to refresh element refs.")) := by
  refine ⟨?_, ?_, ?_⟩
  · intro hnone
    unfold specResolutionOrder at hnone
    cases hx : pickMatching stored.fingerprint
        (page ("xpath=" ++ stored.selectors.xpath)) with
    | some e1 => simp [hx] at hnone
    | none =>
        simp only [hx] at hnone
        cases hc : pickMatching stored.fingerprint (page stored.selectors.cssPath) with
        | some e1 => simp [hc] at hnone
        | none =>
            simp only [hc] at hnone
            refine ⟨?_, ?_, ?_⟩
            · intro e he
              cases hxl : page ("xpath=" ++ stored.selectors.xpath) with
              | nil => rw [hxl] at he; exact absurd he (by simp)
              | cons a t =>
                  rw [hxl] at he
                  simp only [List.head?_cons, Option.some.injEq] at he
                  subst he
                  rw [hxl] at hx
                  simp [resolveLocator, hx, hc, hnone, hxl]
            · intro hxl e he
              cases hcl : page stored.selectors.cssPath with
              | nil => rw [hcl] at he; exact absurd he (by simp)
              | cons a t =>
                  rw [hcl] at he
                  simp only [List.head?_cons, Option.some.injEq] at he
                  subst he
                  rw [hcl] at hc
                  simp [resolveLocator, hx, hc, hnone, hxl, hcl, pickMatching_nil]
            · intro hxl hcl e he
              cases hfl : fingerprintCandidates page stored with
              | nil => rw [hfl] at he; exact absurd he (by simp)
              | cons a t =>
                  rw [hfl] at he
                  simp only [List.head?_cons, Option.some.injEq] at he
                  subst he
                  rw [hfl] at hnone
                  simp [resolveLocator, hx, hc, hnone, hxl, hcl, hfl, pickMatching_nil]
  · constructor
    · rintro ⟨msg, hmsg⟩
      cases hxl : page ("xpath=" ++ stored.selectors.xpath) with
      | cons a t =>
          cases hp : pickMatching stored.fingerprint (a :: t) with
          | some e1 => simp [resolveLocator, hxl, hp] at hmsg
          | none =>
              cases hcp : pickMatching stored.fingerprint
                  (page stored.selectors.cssPath) with
              | some e1 => simp [resolveLocator, hxl, hp, hcp] at hmsg
              | none =>
                  cases hfp : pickMatching stored.fingerprint
                      (fingerprintCandidates page stored) with
                  | some e1 => simp [resolveLocator, hxl, hp, hcp, hfp] at hmsg
                  | none => simp [resolveLocator, hxl, hp, hcp, hfp] at hmsg
      | nil =>
          cases hcl : page stored.selectors.cssPath with
          | cons a t =>
              cases hcp : pickMatching stored.fingerprint (a :: t) with
              | some e1 => simp [resolveLocator, hxl, hcl, hcp, pickMatching_nil] at hmsg
              | none =>
                  cases hfp : pickMatching stored.fingerprint
                      (fingerprintCandidates page stored) with
                  | some e1 =>
                      simp [resolveLocator, hxl, hcl, hcp, hfp, pickMatching_nil] at hmsg
                  | none =>
                      simp [resolveLocator, hxl, hcl, hcp, hfp, pickMatching_nil] at hmsg
          | nil =>
              cases hfl : fingerprintCandidates page stored with
              | cons a t =>
                  cases hfp : pickMatching stored.fingerprint (a :: t) with
                  | some e1 =>
                      simp [resolveLocator, hxl, hcl, hfl, hfp, pickMatching_nil] at hmsg
                  | none =>
                      simp [resolveLocator, hxl, hcl, hfl, hfp, pickMatching_nil] at hmsg
              | nil => exact ⟨rfl, rfl, rfl⟩
    · rintro ⟨h1, h2, h3⟩
      refine ⟨"Unable to resolve element for ref " ++ stored.ref ++
        ". Call getState() again to refresh element refs.", ?_⟩
      simp [resolveLocator, h1, h2, h3, pickMatching_nil]
  · intro h1 h2 h3
    simp [resolveLocator, h1, h2, h3, pickMatching_nil]

/-- Witness for C7: a stale ref whose stored paths all fail the
fingerprint check falls back to the first XPath candidate; a page with no
candidates at all yields the unresolved error. -/
theorem c7_fallback_and_unresolved_witness :
    (specResolutionOrder
        (fun s => if s = "xpath=/p" then [⟨"DIV", []⟩] else [])
        ⟨"button_0", 0, ⟨"/p", "c", none⟩, ⟨"button", none, none, none, none⟩⟩ =
      none) ∧
    resolveLocator
        (fun s => if s = "xpath=/p" then [⟨"DIV", []⟩] else [])
        ⟨"button_0", 0, ⟨"/p", "c", none⟩, ⟨"button", none, none, none, none⟩⟩ =
      .ok ⟨"DIV", []⟩ ∧
    resolveLocator (fun _ => [])
        ⟨"button_0", 0, ⟨"/p", "c", none⟩, ⟨"button", none, none, none, none⟩⟩ =
      .error ("Unable to resolve element for ref " ++ "button_0" ++
        ". Call getState() again to refresh element refs.") :=
  ⟨by decide,
    ((c7_fallback_and_unresolved
        (fun s => if s = "xpath=/p" then [⟨"DIV", []⟩] else [])
        ⟨"button_0", 0, ⟨"/p", "c", none⟩, ⟨"button", none, none, none, none⟩⟩).1
      (by decide)).1 ⟨"DIV", []⟩ (by decide),
    (c7_fallback_and_unresolved (fun _ => [])
        ⟨"button_0", 0, ⟨"/p", "c", none⟩, ⟨"button", none, none, none, none⟩⟩).2.2
      rfl rfl (by decide)⟩

/-- Counterexample to claim C2 as stated: a request whose line carries the
correlation token `"abc"` but is truncated before the closing brace cannot
be decoded; `JSON.parse` throws and the broker answers with the fixed
placeholder id `"error"`, not with the request's token. -/
theorem c2_counterexample_malformed_line_id :
    (lineResponse (.malformed "Unexpected end of JSON input") (pingCase "x")).id
      = "error" ∧ ("error" : String) ≠ "abc" :=
  ⟨rfl, by decide⟩

/-- Claim C2 amended: every response produced by a `handleRequest` arm —
including the error responses of the dispatch-boundary catch — carries the
correlation id of its request; a line that parses but fails schema
validation is answered with the parsed message's `id` field when present
and with `"unknown"` otherwise; a line that cannot be decoded at all is
answered with the fixed placeholder id `"error"` rather than the
request's token. -/
theorem c2_response_id_propagation
    (st : BrokerState) (reqId generated : String) (sessionId : Option String)
    (sid zodMsg thrownMsg : String) (idF : Option String) (isClose : Bool)
    (cmdO stopO actO waitO stO startO : Except String Unit)
    (tS tE now : Int) (handled : DResponse) :
    (pingCase reqId).id = reqId ∧
    (shutdownCase reqId).id = reqId ∧
    (listCase reqId).id = reqId ∧
    ((createCase st reqId sessionId generated startO now).1).id = reqId ∧
    ((closeCase st reqId sid stopO).1).id = reqId ∧
    ((commandCase st reqId sessionId isClose cmdO stopO tS tE).1).id = reqId ∧
    ((actCase st reqId sessionId actO tS tE).1).id = reqId ∧
    ((waitCase st reqId sessionId waitO tS tE).1).id = reqId ∧
    ((stateCase st reqId sessionId stO tS tE).1).id = reqId ∧
    (lineResponse (.invalid idF zodMsg) handled).id = idF.getD "unknown" ∧
    (lineResponse (.malformed thrownMsg) handled).id = "error" := by
  refine ⟨rfl, rfl, rfl, ?_, ?_, ?_, ?_, ?_, ?_, rfl, rfl⟩
  · cases hcc : createSessionM st sessionId generated startO now <;>
      simp [createCase, hcc]
  · cases hcl : closeSession st sid stopO <;> simp [closeCase, hcl]
  · cases hg : getOrDefaultSession st sessionId with
    | error m => simp [commandCase, hg]
    | ok s =>
        cases cmdO with
        | error m => simp [commandCase, hg]
        | ok u =>
            cases isClose with
            | false => simp [commandCase, hg]
            | true =>
                cases hc : closeSession (sessionOpAcquire st s.id tS) s.id stopO <;>
                  simp [commandCase, hg, hc]
  · cases hg : getOrDefaultSession st sessionId with
    | error m => simp [actCase, hg]
    | ok s => cases actO <;> simp [actCase, hg]
  · cases hg : getOrDefaultSession st sessionId with
    | error m => simp [waitCase, hg]
    | ok s => cases waitO <;> simp [waitCase, hg]
  · cases hg : getOrDefaultSession st sessionId with
    | error m => simp [stateCase, hg]
    | ok s => cases stO <;> simp [stateCase, hg]

/-- Counterexample to claim C1 as stated.  Starting from a single idle
session `"s1"` and two pending run-command dispatches against it, the
daemon's own step relation (which has no SessionBusy rejection and no
queueing: entry is unconditionally enabled) reaches a state in which BOTH
operations are simultaneously in flight against the same session — the
second dispatch entered while the busy flag of `"s1"` was already held by
the first, was not failed with SessionBusy, and was not queued. -/
theorem c1_counterexample_concurrent_dispatch :
    Relation.ReflTransGen (DispatchStep "s1")
      ⟨⟨[⟨"s1", false, 0⟩], []⟩, .pending, .pending⟩
      ⟨⟨[⟨"s1", true, 2⟩], []⟩, .running, .running⟩ :=
  Relation.ReflTransGen.head
    (DispatchStep.startA ⟨⟨[⟨"s1", false, 0⟩], []⟩, .pending, .pending⟩ 1 rfl)
    (Relation.ReflTransGen.head
      (DispatchStep.startB ⟨⟨[⟨"s1", true, 1⟩], []⟩, .running, .pending⟩ 2 rfl)
      Relation.ReflTransGen.refl)

/-- Claim C1 amended: the socket daemon itself never rejects a dispatch
with SessionBusy — for a session whose busy flag is already held, each
session-operation arm of `handleRequest` still executes the operation,
and its response is exactly the response determined by the operation
body's own outcome.  The busy-flag rejection exists only in the HTTP
server front-end, whose `getSessionOrThrow` fails a dispatch against a
busy session with the 409 "Session is busy" error before anything runs. -/
theorem c1_busy_dispatch_behavior
    (st : BrokerState) (reqId : String) (sessionId : Option String)
    (cmdO stopO actO waitO stO : Except String Unit) (tS tE : Int)
    (s : DSession) (sessions : List SrvSession) (sid : String)
    (srv : SrvSession) :
    (getOrDefaultSession st sessionId = .ok s → s.busy = true →
      (commandCase st reqId sessionId false cmdO stopO tS tE).1 =
        (match cmdO with
          | .ok _ => { id := reqId, success := true, error := none }
          | .error m => { id := reqId, success := false, error := some m }) ∧
      (actCase st reqId sessionId actO tS tE).1 =
        (match actO with
          | .ok _ => { id := reqId, success := true, error := none }
          | .error m => { id := reqId, success := false, error := some m }) ∧
      (waitCase st reqId sessionId waitO tS tE).1 =
        (match waitO with
          | .ok _ => { id := reqId, success := true, error := none }
          | .error m => { id := reqId, success := false, error := some m }) ∧
      (stateCase st reqId sessionId stO tS tE).1 =
        (match stO with
          | .ok _ => { id := reqId, success := true, error := none }
          | .error m => { id := reqId, success := false, error := some m })) ∧
    (sessions.find? (fun t => t.id = sid) = some srv → srv.busy = true →
      getSessionOrThrow sessions sid = .error .busyRejection ∧
      httpStatus .busyRejection = 409) := by
  constructor
  · intro h _
    refine ⟨?_, ?_, ?_, ?_⟩
    · cases cmdO <;> simp [commandCase, h]
    · cases actO <;> simp [actCase, h]
    · cases waitO <;> simp [waitCase, h]
    · cases stO <;> simp [stateCase, h]
  · intro hf hb
    exact ⟨by simp [getSessionOrThrow, hf, hb], rfl⟩

/-- Witness for C1's amended theorem: a busy session `"s1"`, a successful
command body, and the HTTP server's rejection of the same situation. -/
theorem c1_busy_dispatch_behavior_witness :
    (commandCase ⟨[⟨"s1", true, 0⟩], []⟩ "r1" (some "s1") false (.ok ()) (.ok ()) 5 9).1 =
      { id := "r1", success := true, error := none } ∧
    getSessionOrThrow [⟨"s1", true, 0⟩] "s1" = .error .busyRejection ∧
    httpStatus .busyRejection = 409 :=
  ⟨((c1_busy_dispatch_behavior ⟨[⟨"s1", true, 0⟩], []⟩ "r1" (some "s1")
      (.ok ()) (.ok ()) (.ok ()) (.ok ()) (.ok ()) 5 9 ⟨"s1", true, 0⟩
      [⟨"s1", true, 0⟩] "s1" ⟨"s1", true, 0⟩).1 (by rfl) rfl).1,
    (c1_busy_dispatch_behavior ⟨[⟨"s1", true, 0⟩], []⟩ "r1" (some "s1")
      (.ok ()) (.ok ()) (.ok ()) (.ok ()) (.ok ()) 5 9 ⟨"s1", true, 0⟩
      [⟨"s1", true, 0⟩] "s1" ⟨"s1", true, 0⟩).2 (by rfl) rfl⟩

/-- Claim C4: for every dispatched session operation (run-command,
run-action-batch, wait-for-condition, get-state) on an existing session,
the body executes against a state in which the target session is busy with
`lastUsed` stamped at entry, and for every outcome of the body (success or
throw, including the close command removing the session) the final state
leaves no registry entry with that id busy: any surviving entry has
`busy = false` and `lastUsed` stamped at exit. -/
theorem c4_dispatch_releases_busy
    (st : BrokerState) (reqId : String) (sessionId : Option String)
    (isClose : Bool) (cmdO stopO actO waitO stO : Except String Unit)
    (tStart tEnd : Int) (s : DSession)
    (h : getOrDefaultSession st sessionId = .ok s) :
    heldAt (sessionOpAcquire st s.id tStart) s.id tStart = true ∧
    releasedAt (commandCase st reqId sessionId isClose cmdO stopO tStart tEnd).2
      s.id tEnd = true ∧
    releasedAt (actCase st reqId sessionId actO tStart tEnd).2 s.id tEnd = true ∧
    releasedAt (waitCase st reqId sessionId waitO tStart tEnd).2 s.id tEnd = true ∧
    releasedAt (stateCase st reqId sessionId stO tStart tEnd).2 s.id tEnd = true := by
  have hhs : hasSession st s.id = true := hasSession_of_getOrDefault st sessionId s h
  have hhs1 : hasSession (sessionOpAcquire st s.id tStart) s.id = true := by
    unfold sessionOpAcquire
    rw [hasSession_update st s.id s.id
      (fun t => { t with busy := true, lastUsed := tStart }) (fun a => rfl)]
    exact hhs
  have hfin : releasedAt
      (commandFinally (sessionOpAcquire st s.id tStart) s.id tEnd) s.id tEnd = true := by
    simp only [commandFinally, hhs1, if_true]
    exact releasedAt_update _ _ _
  refine ⟨heldAt_acquire st s.id tStart, ?_, ?_, ?_, ?_⟩
  · cases cmdO with
    | error m =>
        simp only [commandCase, h]
        exact hfin
    | ok u =>
        cases isClose with
        | false =>
            simp only [commandCase, h, Bool.false_eq_true, if_false]
            exact hfin
        | true =>
            cases hc : closeSession (sessionOpAcquire st s.id tStart) s.id stopO with
            | error m =>
                simp only [commandCase, h, hc, if_true]
                exact hfin
            | ok st' =>
                have hshape := closeSession_ok_shape _ _ _ _ hc
                have habs : hasSession st' s.id = false := by
                  rw [hshape]; exact hasSession_filter_self _ _ _
                simp only [commandCase, h, hc, if_true, commandFinally, habs,
                  Bool.false_eq_true, if_false]
                exact releasedAt_of_absent _ _ _ habs
  · simp only [actCase, h]
    exact releasedAt_update _ _ _
  · simp only [waitCase, h]
    exact releasedAt_update _ _ _
  · simp only [stateCase, h]
    exact releasedAt_update _ _ _

/-- Witness for C4 at a concrete state: one session `"default"`, a
successful command outcome. -/
theorem c4_dispatch_releases_busy_witness :
    heldAt (sessionOpAcquire ⟨[⟨"default", false, 0⟩], []⟩ "default" 5) "default" 5 = true ∧
    releasedAt (commandCase ⟨[⟨"default", false, 0⟩], []⟩ "r1" none false (.ok ()) (.ok ()) 5 9).2
      "default" 9 = true ∧
    releasedAt (actCase ⟨[⟨"default", false, 0⟩], []⟩ "r1" none (.ok ()) 5 9).2 "default" 9 = true ∧
    releasedAt (waitCase ⟨[⟨"default", false, 0⟩], []⟩ "r1" none (.ok ()) 5 9).2 "default" 9 = true ∧
    releasedAt (stateCase ⟨[⟨"default", false, 0⟩], []⟩ "r1" none (.ok ()) 5 9).2 "default" 9 = true :=
  c4_dispatch_releases_busy ⟨[⟨"default", false, 0⟩], []⟩ "r1" none false
    (.ok ()) (.ok ()) (.ok ()) (.ok ()) (.ok ()) 5 9 ⟨"default", false, 0⟩ (by rfl)

/-- Witness for C5: a non-busy session idle past the TTL is evicted, at a
concrete state. -/
theorem c5_sweep_evicts_idle_keeps_busy_witness :
    (0 : Int) < 10 ∧ (⟨"s1", false, 0⟩ : DSession) ∈
      (⟨[⟨"s1", false, 0⟩], []⟩ : BrokerState).sessions ∧
    ((⟨"s1", false, 0⟩ : DSession) ∈
        (sweepTick ⟨[⟨"s1", false, 0⟩], []⟩ 100 10).sessions ↔
      ¬ ((100 : Int) - 0 > 10 ∧ false = false)) :=
  ⟨by norm_num, by simp,
    (c5_sweep_evicts_idle_keeps_busy ⟨[⟨"s1", false, 0⟩], []⟩ 100 10 (by norm_num)
      ⟨"s1", false, 0⟩ (by simp)).1⟩

lemma take_append_drop_sublist (items : List α) (h k : Nat)
    (hk : min h items.length ≤ k) :
    (items.take h ++ items.drop k).Sublist items := by
  by_cases hle : h ≤ items.length
  · have hk' : h ≤ k := by omega
    have h1 : (items.take h ++ items.drop k).Sublist
        (items.take h ++ items.drop h) :=
      (List.Sublist.refl _).append (List.drop_sublist_drop_left items hk')
    have h2 : items.take h ++ items.drop h = items := List.take_append_drop h items
    exact h1.trans (by rw [h2])
  · have h1 : items.take h = items := List.take_of_length_le (by omega)
    have h2 : items.drop k = [] := List.drop_eq_nil_of_le (by omega)
    rw [h1, h2, List.append_nil]

/-- Claim C9: slicing with positive `head` and `tail` returns the first
`head` items followed by a tail block that starts no earlier than the end
of the head block, so the result is a subsequence of the input (no item
position is used twice); the tail block is exactly the last `tail` items
whenever the two blocks fit without overlap (`head + tail ≤ length`). -/
theorem c9_head_tail_slice (items : List α) (h t : Nat) (lim : Option Nat)
    (hh : 0 < h) (ht : 0 < t) :
    sliceList items (some h) (some t) lim =
      items.take h ++ items.drop (max (items.length - t) (min h items.length)) ∧
    min h items.length ≤ max (items.length - t) (min h items.length) ∧
    (sliceList items (some h) (some t) lim).Sublist items ∧
    (h + t ≤ items.length →
      sliceList items (some h) (some t) lim =
        items.take h ++ items.drop (items.length - t)) := by
  have hne : h ≠ 0 := by omega
  have tne : t ≠ 0 := by omega
  have heq : sliceList items (some h) (some t) lim =
      items.take h ++ items.drop (max (items.length - t) (min h items.length)) := by
    simp [sliceList, natOptTruthy, hne, tne, List.length_take]
  refine ⟨heq, le_max_right _ _, ?_, ?_⟩
  · rw [heq]
    exact take_append_drop_sublist items h _ (le_max_right _ _)
  · intro hfit
    rw [heq]
    congr 1
    congr 1
    have : min h items.length ≤ items.length - t := by omega
    omega

/-- Witness for C9 on a concrete ten-element list with `head = 3`,
`tail = 4`. -/
theorem c9_head_tail_slice_witness :
    sliceList (List.range 10) (some 3) (some 4) none =
      (List.range 10).take 3 ++
        (List.range 10).drop (max ((List.range 10).length - 4)
          (min 3 (List.range 10).length)) ∧
    (sliceList (List.range 10) (some 3) (some 4) none).Sublist (List.range 10) ∧
    sliceList (List.range 10) (some 3) (some 4) none =
      (List.range 10).take 3 ++ (List.range 10).drop ((List.range 10).length - 4) :=
  ⟨(c9_head_tail_slice (List.range 10) 3 4 none (by norm_num) (by norm_num)).1,
   (c9_head_tail_slice (List.range 10) 3 4 none (by norm_num) (by norm_num)).2.2.1,
   (c9_head_tail_slice (List.range 10) 3 4 none (by norm_num) (by norm_num)).2.2.2
     (by simp)⟩

lemma consoleCapture_foldl (logs entries : List String) :
    entries.foldl consoleCapturePush logs = logs ++ entries := by
  induction entries generalizing logs with
  | nil => simp
  | cons e rest ih => simp [consoleCapturePush, ih]

lemma pushNetworkEvent_length_le (events : List α) (event : α) (limit : Nat)
    (h : events.length ≤ limit) :
    (pushNetworkEvent events event limit).length ≤ limit := by
  simp only [pushNetworkEvent]
  split
  · next hcond => simp only [List.length_drop]; omega
  · next hcond => omega

lemma pushNetworkEvent_foldl (limit : Nat) (evs : List α) :
    ∀ start : List α, start.length ≤ limit →
      evs.foldl (fun b e => pushNetworkEvent b e limit) start =
        (start ++ evs).drop (start.length + evs.length - limit) := by
  induction evs with
  | nil =>
      intro start h
      simp only [List.foldl_nil, List.append_nil, List.length_nil, Nat.add_zero]
      rw [Nat.sub_eq_zero_of_le h, List.drop_zero]
  | cons e rest ih =>
      intro start h
      rw [List.foldl_cons, ih _ (pushNetworkEvent_length_le start e limit h)]
      have hlen1 : (start ++ [e]).length = start.length + 1 := by simp
      have e2 : (start ++ [e]) ++ rest = start ++ e :: rest := by
        rw [List.append_assoc, List.singleton_append]
      by_cases hov : start.length + 1 > limit
      · have hpv : pushNetworkEvent start e limit =
            (start ++ [e]).drop ((start ++ [e]).length - limit) := by
          simp only [pushNetworkEvent]
          rw [if_pos (by rw [hlen1]; exact hov)]
        rw [hpv]
        have hdlen : ((start ++ [e]).drop ((start ++ [e]).length - limit)).length
            = limit := by
          rw [List.length_drop, hlen1]; omega
        rw [hdlen]
        have hidx : limit + rest.length - limit = rest.length := by omega
        rw [hidx]
        have e1 : (start ++ [e]).drop ((start ++ [e]).length - limit) ++ rest =
            ((start ++ [e]) ++ rest).drop ((start ++ [e]).length - limit) :=
          (List.drop_append_of_le_length (by rw [hlen1]; omega)).symm
        rw [e1, List.drop_drop, e2, hlen1]
        congr 1
        simp only [List.length_cons]
        omega
      · have hpv : pushNetworkEvent start e limit = start ++ [e] := by
          simp only [pushNetworkEvent]
          rw [if_neg (by rw [hlen1]; omega)]
        rw [hpv, e2, hlen1]
        congr 1
        simp only [List.length_cons]
        omega

/-- Counterexample to claim C10 as stated: the console log buffer is not a
ring buffer — there is no fixed capacity bounding its length, since `n`
captured console events always leave `n` entries in the buffer. -/
theorem c10_counterexample_console_unbounded :
    ¬ ∃ cap : Nat, ∀ entries : List String,
      (entries.foldl consoleCapturePush []).length ≤ cap := by
  rintro ⟨cap, hcap⟩
  have h := hcap (List.replicate (cap + 1) (consoleEntry "log" "x"))
  rw [consoleCapture_foldl] at h
  simp at h

/-- Claim C10 amended: the network log buffer is a ring buffer — after any
sequence of captured events its contents are exactly the most recent
`limit` events (the oldest are evicted from the front), so its length
never exceeds the capacity (500 by default); the console log buffer, in
contrast, is unbounded: it accumulates every captured entry. -/
theorem c10_buffer_semantics (limit : Nat) (evs : List α)
    (entries : List String) :
    evs.foldl (fun b e => pushNetworkEvent b e limit) [] =
      evs.drop (evs.length - limit) ∧
    (evs.foldl (fun b e => pushNetworkEvent b e limit) []).length ≤ limit ∧
    defaultNetworkLimit = 500 ∧
    entries.foldl consoleCapturePush [] = entries := by
  have hmain := pushNetworkEvent_foldl limit evs [] (by simp)
  simp only [List.nil_append, List.length_nil, Nat.zero_add] at hmain
  refine ⟨hmain, ?_, rfl, by simpa using consoleCapture_foldl [] entries⟩
  rw [hmain]
  simp only [List.length_drop]
  omega

lemma toDigitsCore_append (b f : Nat) : ∀ (n : Nat) (ds : List Char),
    Nat.toDigitsCore b f n ds = Nat.toDigitsCore b f n [] ++ ds := by
  induction f with
  | zero => intro n ds; simp [Nat.toDigitsCore]
  | succ f ih =>
      intro n ds
      simp only [Nat.toDigitsCore]
      by_cases h0 : n / b = 0
      · simp [h0]
      · simp only [h0, if_false]
        rw [ih (n / b) (Nat.digitChar (n % b) :: ds),
          ih (n / b) [Nat.digitChar (n % b)]]
        simp

lemma digitsVal_append (l : List Char) (c : Char) :
    digitsVal (l ++ [c]) = digitsVal l * 10 + (c.toNat - Char.toNat '0') := by
  simp [digitsVal, List.foldl_append]

lemma digitChar_val (m : Nat) (h : m < 10) :
    (Nat.digitChar m).toNat - Char.toNat '0' = m := by
  interval_cases m <;> decide

lemma digitChar_isDigit (m : Nat) (h : m < 10) :
    (Nat.digitChar m).isDigit = true := by
  interval_cases m <;> decide

lemma toDigitsCore_val (f : Nat) : ∀ n, n < 10 ^ f →
    digitsVal (Nat.toDigitsCore 10 f n []) = n := by
  induction f with
  | zero =>
      intro n hn
      interval_cases n
      decide
  | succ f ih =>
      intro n hn
      simp only [Nat.toDigitsCore]
      by_cases h0 : n / 10 = 0
      · simp only [h0, if_true]
        have hlt : n % 10 < 10 := Nat.mod_lt _ (by norm_num)
        show digitsVal [Nat.digitChar (n % 10)] = n
        have hv : digitsVal [Nat.digitChar (n % 10)] =
            (Nat.digitChar (n % 10)).toNat - Char.toNat '0' := by
          simp [digitsVal]
        rw [hv, digitChar_val _ hlt]
        omega
      · simp only [h0, if_false]
        rw [toDigitsCore_append 10 f (n / 10) [Nat.digitChar (n % 10)],
          digitsVal_append]
        have hdiv : n / 10 < 10 ^ f := by
          have hp : (10 : Nat) ^ (f + 1) = 10 ^ f * 10 := by ring
          exact (Nat.div_lt_iff_lt_mul (by norm_num)).mpr (by omega)
        rw [ih _ hdiv, digitChar_val _ (Nat.mod_lt _ (by norm_num))]
        omega

lemma repr_digitsVal (n : Nat) : digitsVal (Nat.repr n).data = n := by
  show digitsVal (Nat.toDigitsCore 10 (n + 1) n []) = n
  apply toDigitsCore_val
  calc n < 10 ^ n := Nat.lt_pow_self (by norm_num) n
    _ ≤ 10 ^ (n + 1) := Nat.pow_le_pow_right (by norm_num) (Nat.le_succ n)

lemma repr_injective {m n : Nat} (h : Nat.repr m = Nat.repr n) : m = n := by
  have h2 := congrArg (fun s => digitsVal s.data) h
  simpa [repr_digitsVal] using h2

lemma toDigitsCore_mem_digits (f : Nat) : ∀ (n : Nat) (ds : List Char) (c : Char),
    c ∈ Nat.toDigitsCore 10 f n ds → c ∈ ds ∨ c.isDigit = true := by
  induction f with
  | zero => intro n ds c hc; exact Or.inl (by simpa [Nat.toDigitsCore] using hc)
  | succ f ih =>
      intro n ds c hc
      simp only [Nat.toDigitsCore] at hc
      by_cases h0 : n / 10 = 0
      · rw [if_pos h0] at hc
        rcases List.mem_cons.mp hc with rfl | hmem
        · exact Or.inr (digitChar_isDigit _ (Nat.mod_lt _ (by norm_num)))
        · exact Or.inl hmem
      · rw [if_neg h0] at hc
        rcases ih _ _ _ hc with hmem | hdig
        · rcases List.mem_cons.mp hmem with rfl | hmem2
          · exact Or.inr (digitChar_isDigit _ (Nat.mod_lt _ (by norm_num)))
          · exact Or.inl hmem2
        · exact Or.inr hdig

lemma repr_no_underscore (n : Nat) : ('_' : Char) ∉ (Nat.repr n).data := by
  intro hmem
  have hmem2 : ('_' : Char) ∈ Nat.toDigitsCore 10 (n + 1) n [] := hmem
  rcases toDigitsCore_mem_digits (n + 1) n [] '_' hmem2 with h | h
  · simp at h
  · exact absurd h (by decide)

lemma sep_split_inj : ∀ (a1 a2 b1 b2 : List Char), ('_' : Char) ∉ a1 →
    ('_' : Char) ∉ a2 → a1 ++ '_' :: b1 = a2 ++ '_' :: b2 →
    a1 = a2 ∧ b1 = b2 := by
  intro a1
  induction a1 with
  | nil =>
      intro a2 b1 b2 h1 h2 hab
      cases a2 with
      | nil => simpa using hab
      | cons y ys =>
          exfalso
          simp only [List.nil_append, List.cons_append, List.cons.injEq] at hab
          apply h2
          rw [← hab.1]
          exact List.mem_cons_self _ _
  | cons x xs ih =>
      intro a2 b1 b2 h1 h2 hab
      cases a2 with
      | nil =>
          exfalso
          simp only [List.nil_append, List.cons_append, List.cons.injEq] at hab
          apply h1
          rw [hab.1]
          exact List.mem_cons_self _ _
      | cons y ys =>
          simp only [List.cons_append, List.cons.injEq] at hab
          obtain ⟨hxy, hrest⟩ := hab
          have h1' : ('_' : Char) ∉ xs := fun hm => h1 (List.mem_cons_of_mem _ hm)
          have h2' : ('_' : Char) ∉ ys := fun hm => h2 (List.mem_cons_of_mem _ hm)
          obtain ⟨he, hb⟩ := ih ys b1 b2 h1' h2' hrest
          exact ⟨by rw [hxy, he], hb⟩

lemma refName_data (b : String) (k : Nat) :
    (refName b k).data = b.data ++ '_' :: (Nat.repr k).data := by
  show ((b ++ "_" ++ Nat.repr k) : String).data = _
  simp [String.data_append]

lemma refName_inj {b1 b2 : String} {k1 k2 : Nat}
    (h : refName b1 k1 = refName b2 k2) : b1 = b2 ∧ k1 = k2 := by
  have hd := congrArg String.data h
  rw [refName_data, refName_data] at hd
  have hrev := congrArg List.reverse hd
  simp only [List.reverse_append, List.reverse_cons, List.append_assoc,
    List.singleton_append] at hrev
  have hsep := sep_split_inj (Nat.repr k1).data.reverse (Nat.repr k2).data.reverse
    b1.data.reverse b2.data.reverse
    (fun hm => repr_no_underscore k1 (List.mem_reverse.mp hm))
    (fun hm => repr_no_underscore k2 (List.mem_reverse.mp hm)) hrev
  obtain ⟨hr, hb⟩ := hsep
  have hbdata : b1.data = b2.data := by
    have := congrArg List.reverse hb
    simpa using this
  have hrdata : (Nat.repr k1).data = (Nat.repr k2).data := by
    have := congrArg List.reverse hr
    simpa using this
  exact ⟨String.ext hbdata, repr_injective (String.ext hrdata)⟩

lemma specRefs_mem : ∀ (bases pre : List String) (r : String),
    r ∈ specRefs pre bases → ∃ b k, r = refName b k ∧ pre.count b ≤ k := by
  intro bases
  induction bases with
  | nil => intro pre r hr; simp [specRefs] at hr
  | cons b rest ih =>
      intro pre r hr
      simp only [specRefs, List.mem_cons] at hr
      rcases hr with rfl | hr
      · exact ⟨b, pre.count b, rfl, le_refl _⟩
      · obtain ⟨b', k, hrk, hcount⟩ := ih (pre ++ [b]) r hr
        refine ⟨b', k, hrk, le_trans ?_ hcount⟩
        simp only [List.count_append]
        omega

lemma specRefs_nodup : ∀ (bases pre : List String), (specRefs pre bases).Nodup := by
  intro bases
  induction bases with
  | nil => intro pre; simp [specRefs]
  | cons b rest ih =>
      intro pre
      simp only [specRefs, List.nodup_cons]
      refine ⟨?_, ih (pre ++ [b])⟩
      intro hmem
      obtain ⟨b', k, hrk, hcount⟩ := specRefs_mem rest (pre ++ [b]) _ hmem
      obtain ⟨hb, hk⟩ := refName_inj hrk
      rw [← hb] at hcount
      rw [← hk] at hcount
      simp only [List.count_append, List.count_singleton_self] at hcount
      omega

lemma assignRefsAux_eq_specRefs :
    ∀ (bases : List String) (counters : List (String × Nat)) (pre : List String),
    (∀ b, (counters.lookup b).getD 0 = pre.count b) →
    assignRefsAux counters bases = specRefs pre bases := by
  intro bases
  induction bases with
  | nil => intro counters pre _; rfl
  | cons b rest ih =>
      intro counters pre h
      simp only [assignRefsAux, specRefs]
      rw [h b]
      have htail : assignRefsAux ((b, pre.count b + 1) :: counters) rest =
          specRefs (pre ++ [b]) rest := by
        apply ih
        intro b'
        by_cases hbb : b' = b
        · subst hbb
          simp only [List.lookup_cons_self, Option.getD_some, List.count_append,
            List.count_singleton_self]
        · have hbeq : (b' == b) = false := beq_eq_false_iff_ne.mpr hbb
          simp only [List.lookup_cons, hbeq, List.count_append]
          rw [h b']
          have hcount0 : [b].count b' = 0 := by
            simp [List.count_singleton, beq_eq_false_iff_ne.mpr (fun he => hbb he.symm)]
          omega
      rw [htail]
      rfl

/-- Claim C8: ref assignment implements the spec's naming rule — each
element's ref is `<category>_<n>` with `n` the zero-based count of
earlier same-category elements in the same snapshot (`specRefs`, starting
from an empty history because the counters reset per snapshot); the refs
of one snapshot are pairwise distinct; two rebuilds over element lists
with identical category sequences assign identical refs; and the
category is the normalized `role` attribute whenever one is present. -/
theorem c8_ref_naming (bases : List String) (raws1 raws2 : List RawElementInfo)
    (role : String) (tag ty : String) :
    assignRefs bases = specRefs [] bases ∧
    (assignRefs bases).Nodup ∧
    (raws1.map (fun r => r.refBase) = raws2.map (fun r => r.refBase) →
      extractRefs raws1 = extractRefs raws2) ∧
    (role ≠ "" → getElementBase (some role) tag ty = normalizeBase role) := by
  have hmain : assignRefs bases = specRefs [] bases :=
    assignRefsAux_eq_specRefs bases [] [] (by intro b; simp)
  refine ⟨hmain, ?_, ?_, ?_⟩
  · rw [hmain]; exact specRefs_nodup bases []
  · intro h
    show assignRefs (raws1.map (fun r => r.refBase)) =
      assignRefs (raws2.map (fun r => r.refBase))
    rw [h]
  · intro hrole
    simp [getElementBase, strTruthy, hrole]

/-- Witness for C8 on a concrete snapshot with repeated categories
(`button`, `link`, `button`): refs `button_0`, `link_0`, `button_1`,
pairwise distinct; rebuild determinism and role-derived category at
concrete inputs. -/
theorem c8_ref_naming_witness :
    assignRefs ["button", "link", "button"] =
      specRefs [] ["button", "link", "button"] ∧
    (assignRefs ["button", "link", "button"]).Nodup ∧
    extractRefs [⟨"button", "Save", "button"⟩] =
      extractRefs [⟨"button", "Cancel", "button"⟩] ∧
    getElementBase (some "menuitem") "div" "" = normalizeBase "menuitem" :=
  ⟨(c8_ref_naming ["button", "link", "button"] [] [] "menuitem" "div" "").1,
   (c8_ref_naming ["button", "link", "button"] [] [] "menuitem" "div" "").2.1,
   (c8_ref_naming ["button", "link", "button"]
      [⟨"button", "Save", "button"⟩] [⟨"button", "Cancel", "button"⟩]
      "menuitem" "div" "").2.2.1 (by decide),
   (c8_ref_naming ["button", "link", "button"] [] [] "menuitem" "div" "").2.2.2
     (by decide)⟩

end AgentBrowser
